import Mathlib

/-!
# libdbusmenu-gtk client: structural and property synchronisation

A shallow embedding of `libdbusmenu-gtk/client.c`.  The C handlers mutate
three kinds of state: the observations the model library offers about a
`DbusmenuMenuitem`, the two `g_object_set_data` slots the client attaches to
each item (`data_menuitem`, `data_menu`), and the GTK widgets.  Each handler
becomes a function `State → … → State`.
-/

namespace DbusmenuGtk

/-- Identity of a `DbusmenuMenuitem` (a non-NULL pointer). -/
abbrev Node := Nat

/-- Identity of a `GtkMenuItem` (a non-NULL pointer). -/
abbrev Widget := Nat

/-- Identity of a `GtkMenu` (a non-NULL pointer). -/
abbrev MenuId := Nat

/-- A `GValue` as the handlers receive it: a string-typed value (whose string
may itself be NULL) or a value of another type. -/
inductive GValue where
  | str (v : Option String)
  | bool (b : Bool)
  | int (i : Int)
  deriving DecidableEq, Repr

/-- A `GdkPixbuf`: either pixel data as decoded, or the result of scaling
another pixbuf to a requested size. -/
inductive Pixbuf where
  | raw (pixels : Nat) (width height : Int)
  | scaled (src : Pixbuf) (width height : Int)
  deriving DecidableEq, Repr

/-- Storage kinds of a `GtkImage` that the client distinguishes. -/
inductive GtkImageType where
  | GTK_IMAGE_EMPTY
  | GTK_IMAGE_PIXBUF
  | GTK_IMAGE_ICON_NAME
  deriving DecidableEq, Repr

/-- A `GtkImage` widget, by what it currently displays. -/
inductive GtkImage where
  | from_icon_name (name : String)
  | from_pixbuf (p : Pixbuf)
  deriving DecidableEq, Repr

/-- The whole state the handlers of `client.c` read and write. -/
structure State where
  /-- Model library query `dbusmenu_menuitem_get_root`. -/
  get_root : Node → Bool
  /-- Model library query `dbusmenu_menuitem_get_children`. -/
  get_children : Node → List Node
  /-- Model library query `dbusmenu_menuitem_get_position item parent`. -/
  get_position : Node → Node → Nat
  /-- Model library query `dbusmenu_menuitem_property_get`. -/
  property_get : Node → String → Option String
  /-- Model library query `dbusmenu_menuitem_property_get_bool`. -/
  property_get_bool : Node → String → Bool
  /-- Model library query `dbusmenu_menuitem_property_get_value`. -/
  property_get_value : Node → String → Option GValue
  /-- Model library query `dbusmenu_menuitem_property_get_image`. -/
  property_get_image : Node → String → Option Pixbuf
  /-- Slot `g_object_get_data (item, data_menuitem)`. -/
  data_menuitem : Node → Option Widget
  /-- Slot `g_object_get_data (mi, data_menu)`. -/
  data_menu : Node → Option MenuId
  /-- Widget flag toggled by `gtk_widget_show` / `gtk_widget_hide`. -/
  visible : Widget → Bool
  /-- Widget flag written by `gtk_widget_set_sensitive`. -/
  sensitive : Widget → Bool
  /-- Text written by `gtk_menu_item_set_label`. -/
  label_text : Widget → Option String
  /-- Widget class test `GTK_IS_IMAGE_MENU_ITEM`: whether the menu item is a
  `GtkImageMenuItem`.  The menu item `gtk_menu_item_new_with_label` builds in
  `new_item_normal` is a plain `GtkMenuItem`, for which this is false. -/
  is_image_menu_item : Widget → Bool
  /-- Image slot of a `GtkImageMenuItem`. -/
  image : Widget → Option GtkImage
  /-- Submenu slot written by `gtk_menu_item_set_submenu`. -/
  submenu : Widget → Option MenuId
  /-- Ordered children of each live `GtkMenu`; `none` for a menu that was
  never created or has been destroyed. -/
  menu_children : MenuId → Option (List Widget)
  /-- Menu flag toggled by `gtk_widget_show` on a `GtkMenu`. -/
  menu_visible : MenuId → Bool
  /-- The pointer the next `gtk_menu_new` returns. -/
  next_menu : MenuId
  /-- Result of `gtk_icon_size_lookup (GTK_ICON_SIZE_MENU, &width, &height)`. -/
  icon_size_menu : Int × Int

/-- Pointwise overwrite of one entry of a table. -/
def set_at {β : Type} (f : Nat → β) (k : Nat) (v : β) : Nat → β :=
  fun x => if x = k then v else f x

/-! ## Property names (`menuitem.h`) -/

/-- Modelled from the spec: the constant `DBUSMENU_MENUITEM_PROP_LABEL` of
`menuitem.h`, the property the spec calls label. -/
def DBUSMENU_MENUITEM_PROP_LABEL : String := "label"

/-- Modelled from the spec: the constant `DBUSMENU_MENUITEM_PROP_VISIBLE` of
`menuitem.h`, the property the spec calls visible. -/
def DBUSMENU_MENUITEM_PROP_VISIBLE : String := "visible"

/-- Modelled from the spec: the constant `DBUSMENU_MENUITEM_PROP_SENSITIVE`
of `menuitem.h`, the property the spec calls sensitive. -/
def DBUSMENU_MENUITEM_PROP_SENSITIVE : String := "sensitive"

/-- Modelled from the spec: the constant `DBUSMENU_MENUITEM_PROP_ICON` of
`menuitem.h`, the property the spec calls icon-name. -/
def DBUSMENU_MENUITEM_PROP_ICON : String := "icon-name"

/-- Modelled from the spec: the constant `DBUSMENU_MENUITEM_PROP_ICON_DATA`
of `menuitem.h`, the property the spec calls icon-data. -/
def DBUSMENU_MENUITEM_PROP_ICON_DATA : String := "icon-data"

/-! ## GLib and GTK primitives used by the handlers -/

/-- Modelled from the spec: GLib list insertion, the positional insert the
toolkit and the model library are built on: the element goes to index
`position`, or to the end when the list is shorter than that. -/
def g_list_insert {α : Type} : List α → α → Nat → List α
  | [], x, _ => [x]
  | a :: l, x, 0 => x :: a :: l
  | a :: l, x, n + 1 => a :: g_list_insert l x n

/-- Modelled from the spec: GLib list removal: the first occurrence of the
element is dropped, a list without it is returned as it is. -/
def g_list_remove {α : Type} [DecidableEq α] : List α → α → List α
  | [], _ => []
  | a :: l, x => if a = x then l else a :: g_list_remove l x

/-- Reading a string out of a `GValue`: NULL for a NULL value and for a value
that does not hold a string (`g_value_get_string`). -/
def g_value_get_string : Option GValue → Option String
  | some (GValue.str v) => v
  | _ => none

/-- Modelled from the spec: toolkit capability create submenu container
(`gtk_menu_new`): a fresh, live, empty, hidden menu. -/
def gtk_menu_new (s : State) : State × MenuId :=
  ({ s with
      menu_children := set_at s.menu_children s.next_menu (some [])
      menu_visible := set_at s.menu_visible s.next_menu false
      next_menu := s.next_menu + 1 },
   s.next_menu)

/-- Modelled from the spec: toolkit call `gtk_menu_item_set_submenu`; a NULL
menu item is rejected by the toolkit and nothing changes. -/
def gtk_menu_item_set_submenu (s : State) (item : Option Widget) (menu : MenuId) : State :=
  match item with
  | none => s
  | some w => { s with submenu := set_at s.submenu w (some menu) }

/-- Modelled from the spec: toolkit capability insert child at position
(`gtk_menu_shell_insert`); a NULL child is rejected by the toolkit and a
menu that is not live has no list to insert into. -/
def gtk_menu_shell_insert (s : State) (menu : MenuId) (child : Option Widget)
    (position : Nat) : State :=
  match child, s.menu_children menu with
  | some w, some l =>
      { s with menu_children := set_at s.menu_children menu (some (g_list_insert l w position)) }
  | _, _ => s

/-- Modelled from the spec: toolkit capability reorder child at position
(`gtk_menu_reorder_child`): a child found in the menu is taken out and
inserted again at `position`; anything else is left alone. -/
def gtk_menu_reorder_child (s : State) (menu : MenuId) (child : Option Widget)
    (position : Nat) : State :=
  match child, s.menu_children menu with
  | some w, some l =>
      if w ∈ l then
        { s with
            menu_children :=
              set_at s.menu_children menu (some (g_list_insert (g_list_remove l w) w position)) }
      else s
  | _, _ => s

/-- Modelled from the spec: toolkit capability show, on a menu. -/
def gtk_widget_show_menu (s : State) (menu : MenuId) : State :=
  { s with menu_visible := set_at s.menu_visible menu true }

/-- Modelled from the spec: toolkit capability destroy submenu container
(`gtk_widget_destroy` on a `GtkMenu`): the menu stops being live and every
menu item it was attached to loses its submenu. -/
def gtk_widget_destroy_menu (s : State) (menu : MenuId) : State :=
  { s with
      menu_children := set_at s.menu_children menu none
      menu_visible := set_at s.menu_visible menu false
      submenu := fun w => if s.submenu w = some menu then none else s.submenu w }

/-- Modelled from the spec: toolkit capability show, on a menu item. -/
def gtk_widget_show (s : State) (gmi : Widget) : State :=
  { s with visible := set_at s.visible gmi true }

/-- Modelled from the spec: toolkit capability hide, on a menu item. -/
def gtk_widget_hide (s : State) (gmi : Widget) : State :=
  { s with visible := set_at s.visible gmi false }

/-- Modelled from the spec: toolkit capability enable/disable. -/
def gtk_widget_set_sensitive (s : State) (gmi : Widget) (val : Bool) : State :=
  { s with sensitive := set_at s.sensitive gmi val }

/-- Modelled from the spec: toolkit capability set label. -/
def gtk_menu_item_set_label (s : State) (gmi : Widget) (text : Option String) : State :=
  { s with label_text := set_at s.label_text gmi text }

/-- Storage kind of a possibly NULL `GtkImage` (`gtk_image_get_storage_type`,
which answers `GTK_IMAGE_EMPTY` for NULL). -/
def gtk_image_get_storage_type : Option GtkImage → GtkImageType
  | none => GtkImageType.GTK_IMAGE_EMPTY
  | some (GtkImage.from_pixbuf _) => GtkImageType.GTK_IMAGE_PIXBUF
  | some (GtkImage.from_icon_name _) => GtkImageType.GTK_IMAGE_ICON_NAME

/-- Width of a pixbuf (`gdk_pixbuf_get_width`). -/
def gdk_pixbuf_get_width : Pixbuf → Int
  | Pixbuf.raw _ w _ => w
  | Pixbuf.scaled _ w _ => w

/-- Height of a pixbuf (`gdk_pixbuf_get_height`). -/
def gdk_pixbuf_get_height : Pixbuf → Int
  | Pixbuf.raw _ _ h => h
  | Pixbuf.scaled _ _ h => h

/-- Modelled from the spec: toolkit capability image scale-to-bounds
(`gdk_pixbuf_scale_simple`): the source scaled to exactly the requested
width and height. -/
def gdk_pixbuf_scale_simple (image : Pixbuf) (width height : Int) : Pixbuf :=
  Pixbuf.scaled image width height

/-- Modelled from the spec: toolkit query `gtk_image_menu_item_get_image`: the
image of a `GtkImageMenuItem`; a widget of another class fails the
toolkit's type check and the answer is NULL. -/
def gtk_image_menu_item_get_image (s : State) (gimi : Widget) : Option GtkImage :=
  if s.is_image_menu_item gimi then s.image gimi else none

/-- Modelled from the spec: toolkit capability set/clear icon
(`gtk_image_menu_item_set_image`): the image of a `GtkImageMenuItem` is
replaced; a widget of another class fails the toolkit's type check and
nothing changes. -/
def gtk_image_menu_item_set_image (s : State) (gimi : Widget) (img : Option GtkImage) : State :=
  if s.is_image_menu_item gimi then { s with image := set_at s.image gimi img } else s

/-! ## The client (`client.c`) -/

/-- Source `process_visible`: the default is TRUE; a non-NULL notified value
makes the handler read the item's visible property as a boolean. -/
def process_visible (s : State) (mi : Node) (gmi : Widget) (value : Option GValue) : State :=
  let val : Bool :=
    match value with
    | some _ => s.property_get_bool mi DBUSMENU_MENUITEM_PROP_VISIBLE
    | none => true
  if val then gtk_widget_show s gmi else gtk_widget_hide s gmi

/-- Source `process_sensitive`. -/
def process_sensitive (s : State) (mi : Node) (gmi : Widget) (value : Option GValue) : State :=
  let val : Bool :=
    match value with
    | some _ => s.property_get_bool mi DBUSMENU_MENUITEM_PROP_SENSITIVE
    | none => true
  gtk_widget_set_sensitive s gmi val

/-- Source `menu_prop_change_cb`: dispatch on the property name. -/
def menu_prop_change_cb (s : State) (mi : Node) (prop : String) (value : Option GValue)
    (gmi : Widget) : State :=
  if prop = DBUSMENU_MENUITEM_PROP_LABEL then
    gtk_menu_item_set_label s gmi (g_value_get_string value)
  else if prop = DBUSMENU_MENUITEM_PROP_VISIBLE then
    process_visible s mi gmi value
  else if prop = DBUSMENU_MENUITEM_PROP_SENSITIVE then
    process_sensitive s mi gmi value
  else s

/-- Source `dbusmenu_gtkclient_menuitem_get`: the `data_menuitem` slot of the
item, NULL (after a warning) when the slot is empty.  The two type checks
on `client` and `item` hold for every `Node`. -/
def dbusmenu_gtkclient_menuitem_get (s : State) (item : Node) : Option Widget :=
  match s.data_menuitem item with
  | none => none
  | some data => some data

/-- Source `new_child`. -/
def new_child (s : State) (mi child : Node) (position : Nat) : State :=
  if s.get_root mi then s
  else
    let built : State × MenuId :=
      match s.data_menu mi with
      | some menu => (s, menu)
      | none =>
          let made := gtk_menu_new s
          let s1 : State := { made.1 with data_menu := set_at made.1.data_menu mi (some made.2) }
          let parent := dbusmenu_gtkclient_menuitem_get s1 mi
          (gtk_menu_item_set_submenu s1 parent made.2, made.2)
    let childmi := dbusmenu_gtkclient_menuitem_get built.1 child
    let s2 := gtk_menu_shell_insert built.1 built.2 childmi position
    gtk_widget_show_menu s2 built.2

/-- Source `delete_child`. -/
def delete_child (s : State) (mi _child : Node) : State :=
  if s.get_root mi then s
  else if (s.get_children mi).length = 0 then
    match s.data_menu mi with
    | some menu =>
        let s1 := gtk_widget_destroy_menu s menu
        { s1 with data_menu := set_at s1.data_menu mi none }
    | none => s
  else s

/-- Source `move_child`. -/
def move_child (s : State) (mi child : Node) (new _old : Nat) : State :=
  if s.get_root mi then s
  else
    match s.data_menu mi with
    | none => s
    | some ann_menu =>
        let childmi := dbusmenu_gtkclient_menuitem_get s child
        gtk_menu_reorder_child s ann_menu childmi new

/-- Source `dbusmenu_gtkclient_newitem_base`.  The signal connections and the
weak reference register callbacks and leave the state as it is. -/
def dbusmenu_gtkclient_newitem_base (s : State) (item : Node) (gmi : Widget)
    (parent : Option Node) : State :=
  let s1 : State := { s with data_menuitem := set_at s.data_menuitem item (some gmi) }
  let s2 := process_visible s1 item gmi (s1.property_get_value item DBUSMENU_MENUITEM_PROP_VISIBLE)
  let s3 :=
    process_sensitive s2 item gmi (s2.property_get_value item DBUSMENU_MENUITEM_PROP_SENSITIVE)
  match parent with
  | some p => new_child s3 p item (s3.get_position item p)
  | none => s3

/-- Source `image_property_handle`, lines 419-429: the property the handler
goes on with after looking at the notified value. -/
def image_effective_property (property : String) (invalue : Option GValue) : String :=
  let value := g_value_get_string invalue
  if value = none ∨ value = some "" then
    if property ≠ DBUSMENU_MENUITEM_PROP_ICON then DBUSMENU_MENUITEM_PROP_ICON_DATA
    else DBUSMENU_MENUITEM_PROP_ICON
  else property

/-- Source `image_property_handle`, lines 472-483: the pixbuf handed to the
`GtkImage`, scaled when it exceeds the menu icon size on either axis. -/
def image_resize (s : State) (image : Pixbuf) : Pixbuf :=
  if gdk_pixbuf_get_width image > s.icon_size_menu.1 ∨
      gdk_pixbuf_get_height image > s.icon_size_menu.2 then
    gdk_pixbuf_scale_simple image s.icon_size_menu.1 s.icon_size_menu.2
  else image

/-- Source `image_property_handle`. -/
def image_property_handle (s : State) (item : Node) (property : String)
    (invalue : Option GValue) : State :=
  if ¬ (property = DBUSMENU_MENUITEM_PROP_ICON ∨ property = DBUSMENU_MENUITEM_PROP_ICON_DATA) then s
  else
    let property1 := image_effective_property property invalue
    match dbusmenu_gtkclient_menuitem_get s item with
    | none => s
    | some gimi =>
        let gtkimage := gtk_image_menu_item_get_image s gimi
        if property1 = DBUSMENU_MENUITEM_PROP_ICON_DATA ∧
            gtk_image_get_storage_type gtkimage = GtkImageType.GTK_IMAGE_ICON_NAME then s
        else
          let gtkimage1 : Option GtkImage :=
            if property1 = DBUSMENU_MENUITEM_PROP_ICON then
              match s.property_get item property1 with
              | none => none
              | some iconname => some (GtkImage.from_icon_name iconname)
            else
              match s.property_get_image item property1 with
              | none => none
              | some image => some (GtkImage.from_pixbuf (image_resize s image))
          gtk_image_menu_item_set_image s gimi gtkimage1

/-! ## The model library's child list (`libdbusmenu-glib/menuitem.c`) -/

/-- Modelled from the spec: the model library's child insertion
(`dbusmenu_menuitem_child_add_position`), which the spec describes only as
a child gaining a 0-based position in the ordered child sequence. -/
def child_add_position (s : State) (mi child : Node) (position : Nat) : State :=
  { s with get_children := set_at s.get_children mi (g_list_insert (s.get_children mi) child position) }

/-- Modelled from the spec: the model library's child removal
(`dbusmenu_menuitem_child_delete`): the child leaves the ordered child
sequence. -/
def child_delete (s : State) (mi child : Node) : State :=
  { s with get_children := set_at s.get_children mi (g_list_remove (s.get_children mi) child) }

/-- Modelled from the spec: the model library's child move
(`dbusmenu_menuitem_child_reorder`): the child is taken out of the ordered
child sequence and put back at the new position. -/
def child_reorder (s : State) (mi child : Node) (position : Nat) : State :=
  { s with
      get_children :=
        set_at s.get_children mi (g_list_insert (g_list_remove (s.get_children mi) child) child position) }

/-! ## Vocabulary of the structural claims -/

/-- The ordered menu items of the submenu container the item's `data_menu`
slot points to; `none` when the slot is empty or the menu is not live. -/
def container (s : State) (mi : Node) : Option (List Widget) :=
  match s.data_menu mi with
  | none => none
  | some menu => s.menu_children menu

/-- The visual child order of an item: the menu items of its container, and
no menu items when it has no container. -/
def visual_order (s : State) (mi : Node) : List Widget :=
  (container s mi).getD []

/-- The abstract child order of an item, each child replaced by its bound
menu item (`none` for a child that is not bound). -/
def bound_children (s : State) (mi : Node) : List (Option Widget) :=
  (s.get_children mi).map s.data_menuitem

/-- Order agreement: the visual child order is the list of bound menu items
of the abstract children, in abstract order (so every child is bound). -/
def order_ok (s : State) (mi : Node) : Prop :=
  (visual_order s mi).map some = bound_children s mi

instance (s : State) (mi : Node) : Decidable (order_ok s mi) :=
  inferInstanceAs (Decidable ((visual_order s mi).map some = bound_children s mi))

/-- The `data_menu` slot of the item, when set, holds a live menu. -/
def menu_live (s : State) (mi : Node) : Prop :=
  ∀ m, s.data_menu mi = some m → s.menu_children m ≠ none

/-- Distinct items are bound to distinct menu items. -/
def binding_injective (s : State) : Prop :=
  ∀ a b w, s.data_menuitem a = some w → s.data_menuitem b = some w → a = b

/-- The two operations of the order claim, on the children of one parent. -/
inductive ChildOp where
  | insertion (child : Node) (position : Nat)
  | move (child : Node) (position : Nat)
  deriving DecidableEq, Repr

/-- One operation on the children of `mi`: the model library changes the
child list, then the client's handler runs for that change. -/
def apply_op (s : State) (mi : Node) : ChildOp → State
  | ChildOp.insertion child position =>
      new_child (child_add_position s mi child position) mi child position
  | ChildOp.move child position =>
      move_child (child_reorder s mi child position) mi child position
        ((s.get_children mi).indexOf child)

/-- What the order claim asks of an operation: an inserted child is bound and
its position is at most the child count; a moved child is a child and its
new position is below the child count. -/
def op_ok (s : State) (mi : Node) : ChildOp → Prop
  | ChildOp.insertion child position =>
      s.data_menuitem child ≠ none ∧ position ≤ (s.get_children mi).length
  | ChildOp.move child position =>
      child ∈ s.get_children mi ∧ position < (s.get_children mi).length

/-- Running a sequence of operations on the children of `mi`. -/
def run_ops (s : State) (mi : Node) : List ChildOp → State
  | [] => s
  | op :: rest => run_ops (apply_op s mi op) mi rest

/-- Every operation of the sequence meets `op_ok` in the state it runs in. -/
def ops_ok (s : State) (mi : Node) : List ChildOp → Prop
  | [] => True
  | op :: rest => op_ok s mi op ∧ ops_ok (apply_op s mi op) mi rest

/-- The two operations of the container claim, on any parent. -/
inductive TreeOp where
  | add (mi child : Node) (position : Nat)
  | remove (mi child : Node)
  deriving DecidableEq, Repr

/-- One tree operation: the model library changes the child list, then the
client's handler runs for that change. -/
def tree_step (s : State) : TreeOp → State
  | TreeOp.add mi child position =>
      new_child (child_add_position s mi child position) mi child position
  | TreeOp.remove mi child => delete_child (child_delete s mi child) mi child

/-- Running a sequence of tree operations. -/
def run_tree (s : State) : List TreeOp → State
  | [] => s
  | op :: rest => run_tree (tree_step s op) rest

/-- Container invariant: a root item has no `data_menu`, and a non-root item
has one exactly when it has a child. -/
def container_inv (s : State) : Prop :=
  ∀ n, (s.get_root n = true → s.data_menu n = none) ∧
    (s.get_root n = false → (s.data_menu n ≠ none ↔ s.get_children n ≠ []))

/-! ## Concrete states used to run the handlers -/

/-- A state with one root item 0, no children, no bindings and no menus; the
menu icon size is 16 by 16. -/
def blank_state : State where
  get_root := fun n => decide (n = 0)
  get_children := fun _ => []
  get_position := fun _ _ => 0
  property_get := fun _ _ => none
  property_get_bool := fun _ _ => false
  property_get_value := fun _ _ => none
  property_get_image := fun _ _ => none
  data_menuitem := fun _ => none
  data_menu := fun _ => none
  visible := fun _ => false
  sensitive := fun _ => false
  label_text := fun _ => none
  is_image_menu_item := fun _ => false
  image := fun _ => none
  submenu := fun _ => none
  menu_children := fun _ => none
  menu_visible := fun _ => false
  next_menu := 100
  icon_size_menu := (16, 16)

/-- Items 1 to 4 bound to the menu items 11 to 14. -/
def bound_state : State :=
  { blank_state with
      data_menuitem := fun n => if 1 ≤ n ∧ n ≤ 4 then some (n + 10) else none }

/-- Item 1 bound to menu item 11, a `GtkImageMenuItem` that shows the named
icon foo; the item carries a 48 by 48 image and its icon name is the empty
string. -/
def named_icon_state : State :=
  { bound_state with
      is_image_menu_item := fun w => decide (w = 11)
      image := fun w => if w = 11 then some (GtkImage.from_icon_name "foo") else none
      property_get := fun n p =>
        if n = 1 ∧ p = DBUSMENU_MENUITEM_PROP_ICON then some "" else none
      property_get_image := fun n p =>
        if n = 1 ∧ p = DBUSMENU_MENUITEM_PROP_ICON_DATA then some (Pixbuf.raw 7 48 48) else none }

/-- Item 1 bound to menu item 11, a `GtkImageMenuItem` without an icon; the
item carries a 48 by 20 image. -/
def image_state : State :=
  { bound_state with
      is_image_menu_item := fun w => decide (w = 11)
      property_get_image := fun n p =>
        if n = 1 ∧ p = DBUSMENU_MENUITEM_PROP_ICON_DATA then some (Pixbuf.raw 7 48 20) else none }

/-- Item 1 has the children 2 and 3, bound to the menu items 12 and 13, which
its container, menu 50, holds in that order. -/
def family_state : State :=
  { bound_state with
      get_children := fun n => if n = 1 then [2, 3] else []
      data_menu := fun n => if n = 1 then some 50 else none
      menu_children := fun m => if m = 50 then some [12, 13] else none }

/-! ## Facts about the primitives -/

theorem set_at_same {β : Type} (f : Nat → β) (k : Nat) (v : β) : set_at f k v k = v := by
  simp [set_at]

theorem set_at_other {β : Type} (f : Nat → β) (k x : Nat) (v : β) (h : x ≠ k) :
    set_at f k v x = f x := by
  simp [set_at, h]

theorem icon_ne_icon_data : DBUSMENU_MENUITEM_PROP_ICON ≠ DBUSMENU_MENUITEM_PROP_ICON_DATA := by
  decide

theorem effective_property_icon (invalue : Option GValue) :
    image_effective_property DBUSMENU_MENUITEM_PROP_ICON invalue = DBUSMENU_MENUITEM_PROP_ICON := by
  simp [image_effective_property]

theorem effective_property_icon_data (invalue : Option GValue) :
    image_effective_property DBUSMENU_MENUITEM_PROP_ICON_DATA invalue =
      DBUSMENU_MENUITEM_PROP_ICON_DATA := by
  have h := icon_ne_icon_data
  simp [image_effective_property, Ne.symm h]

theorem menuitem_get_eq (s : State) (item : Node) :
    dbusmenu_gtkclient_menuitem_get s item = s.data_menuitem item := by
  unfold dbusmenu_gtkclient_menuitem_get
  cases s.data_menuitem item <;> rfl

/-- On a bound menu item that is not a `GtkImageMenuItem` (the plain
`GtkMenuItem` of `new_item_normal`) the handler installs nothing: the getter
answers NULL and the setter is rejected, so the state is as it was. -/
theorem image_property_handle_plain (s : State) (item : Node) (gimi : Widget)
    (property : String) (invalue : Option GValue)
    (hbound : s.data_menuitem item = some gimi)
    (hclass : s.is_image_menu_item gimi = false) :
    image_property_handle s item property invalue = s := by
  unfold image_property_handle
  split
  · rfl
  · simp only [menuitem_get_eq, hbound]
    split
    · rfl
    · simp [gtk_image_menu_item_set_image, hclass]

/-! ## Property projection -/

/-- C3: a property-changed notification for visible shows the bound menu item
when the notified value is NULL, whatever the item's stored visible property
is; with a value present the menu item is shown exactly when the item's
visible property reads as true, and hidden otherwise. -/
theorem visible_notification (s : State) (mi : Node) (gmi : Widget) (value : Option GValue) :
    (menu_prop_change_cb s mi DBUSMENU_MENUITEM_PROP_VISIBLE value gmi).visible gmi =
      (match value with
       | none => true
       | some _ => s.property_get_bool mi DBUSMENU_MENUITEM_PROP_VISIBLE) := by
  have h1 : DBUSMENU_MENUITEM_PROP_VISIBLE ≠ DBUSMENU_MENUITEM_PROP_LABEL := by decide
  unfold menu_prop_change_cb
  rw [if_neg h1, if_pos rfl]
  unfold process_visible
  cases value with
  | none => simp [gtk_widget_show, set_at]
  | some v =>
      cases hb : s.property_get_bool mi DBUSMENU_MENUITEM_PROP_VISIBLE <;>
        simp [hb, gtk_widget_show, gtk_widget_hide, set_at]

/-- C4: when the bound menu item currently shows an icon set from a name, an
icon-data change leaves the state, and so the icon, as it was, whatever
value is notified and whatever image the item carries. -/
theorem named_icon_kept (s : State) (item : Node) (gimi : Widget) (name : String)
    (invalue : Option GValue)
    (hbound : s.data_menuitem item = some gimi)
    (hicon : s.image gimi = some (GtkImage.from_icon_name name)) :
    image_property_handle s item DBUSMENU_MENUITEM_PROP_ICON_DATA invalue = s ∧
      (image_property_handle s item DBUSMENU_MENUITEM_PROP_ICON_DATA invalue).image gimi =
        some (GtkImage.from_icon_name name) := by
  have h : image_property_handle s item DBUSMENU_MENUITEM_PROP_ICON_DATA invalue = s := by
    cases hclass : s.is_image_menu_item gimi with
    | true =>
        unfold image_property_handle
        simp [effective_property_icon_data, menuitem_get_eq, hbound, hicon, hclass,
          gtk_image_menu_item_get_image, gtk_image_get_storage_type]
    | false => exact image_property_handle_plain s item gimi _ invalue hbound hclass
  rw [h]
  exact ⟨rfl, hicon⟩

theorem named_icon_kept_witness :
    named_icon_state.data_menuitem 1 = some 11 ∧
      named_icon_state.image 11 = some (GtkImage.from_icon_name "foo") ∧
      (image_property_handle named_icon_state 1 DBUSMENU_MENUITEM_PROP_ICON_DATA
          (some (GValue.str (some "iVBORw0KGgo=")))).image 11 =
        some (GtkImage.from_icon_name "foo") :=
  ⟨rfl, rfl,
    (named_icon_kept named_icon_state 1 11 "foo" (some (GValue.str (some "iVBORw0KGgo=")))
      rfl rfl).2⟩

/-- C5: when an icon-data change applies the item's non-NULL image, that is,
the bound menu item is a `GtkImageMenuItem` whose current icon is not
name-based, the pixbuf installed on the menu item is no wider and no taller
than the menu icon size; it is the source scaled to exactly that size when
the source exceeds it on either axis, and the source itself when it fits on
both. -/
theorem icon_resize (s : State) (item : Node) (gimi : Widget) (image : Pixbuf)
    (invalue : Option GValue)
    (hbound : s.data_menuitem item = some gimi)
    (hclass : s.is_image_menu_item gimi = true)
    (hfree : gtk_image_get_storage_type (s.image gimi) ≠ GtkImageType.GTK_IMAGE_ICON_NAME)
    (himage : s.property_get_image item DBUSMENU_MENUITEM_PROP_ICON_DATA = some image) :
    ∃ p : Pixbuf,
      (image_property_handle s item DBUSMENU_MENUITEM_PROP_ICON_DATA invalue).image gimi =
          some (GtkImage.from_pixbuf p) ∧
        gdk_pixbuf_get_width p ≤ s.icon_size_menu.1 ∧
        gdk_pixbuf_get_height p ≤ s.icon_size_menu.2 ∧
        ((gdk_pixbuf_get_width image > s.icon_size_menu.1 ∨
            gdk_pixbuf_get_height image > s.icon_size_menu.2) →
          p = gdk_pixbuf_scale_simple image s.icon_size_menu.1 s.icon_size_menu.2) ∧
        ((gdk_pixbuf_get_width image ≤ s.icon_size_menu.1 ∧
            gdk_pixbuf_get_height image ≤ s.icon_size_menu.2) →
          p = image) := by
  have hne := Ne.symm icon_ne_icon_data
  refine ⟨image_resize s image, ?_, ?_, ?_, ?_, ?_⟩
  · unfold image_property_handle
    simp [effective_property_icon_data, menuitem_get_eq, hbound, hclass, hfree, hne, himage,
      gtk_image_menu_item_get_image, gtk_image_menu_item_set_image, set_at]
  · unfold image_resize
    split
    · simp [gdk_pixbuf_scale_simple, gdk_pixbuf_get_width]
    · rename_i h
      simp only [not_or, not_lt] at h
      exact h.1
  · unfold image_resize
    split
    · simp [gdk_pixbuf_scale_simple, gdk_pixbuf_get_height]
    · rename_i h
      simp only [not_or, not_lt] at h
      exact h.2
  · intro h
    simp [image_resize, h]
  · intro h
    have h2 : ¬ (gdk_pixbuf_get_width image > s.icon_size_menu.1 ∨
        gdk_pixbuf_get_height image > s.icon_size_menu.2) := by
      simp only [not_or, not_lt, gt_iff_lt]
      exact h
    simp [image_resize, h2]

theorem icon_resize_witness :
    image_state.data_menuitem 1 = some 11 ∧ image_state.is_image_menu_item 11 = true ∧
      (∃ p : Pixbuf,
        (image_property_handle image_state 1 DBUSMENU_MENUITEM_PROP_ICON_DATA
            (some (GValue.str (some "iVBORw0KGgo=")))).image 11 = some (GtkImage.from_pixbuf p) ∧
          gdk_pixbuf_get_width p ≤ 16 ∧ gdk_pixbuf_get_height p ≤ 16) := by
  refine ⟨rfl, rfl, ?_⟩
  obtain ⟨p, h1, h2, h3, _⟩ :=
    icon_resize image_state 1 11 (Pixbuf.raw 7 48 20) (some (GValue.str (some "iVBORw0KGgo=")))
      rfl rfl (by decide) rfl
  exact ⟨p, h1, h2, h3⟩

/-- C10, evaluated on the code: whatever the notified value is, NULL and the
empty string included, the property `image_property_handle` goes on with is
the notified one; the handler never switches to the other icon property. -/
theorem effective_property_is_notified (invalue : Option GValue) :
    image_effective_property DBUSMENU_MENUITEM_PROP_ICON invalue = DBUSMENU_MENUITEM_PROP_ICON ∧
      image_effective_property DBUSMENU_MENUITEM_PROP_ICON_DATA invalue =
        DBUSMENU_MENUITEM_PROP_ICON_DATA ∧
      image_effective_property DBUSMENU_MENUITEM_PROP_ICON (some (GValue.str (some ""))) ≠
        DBUSMENU_MENUITEM_PROP_ICON_DATA :=
  ⟨effective_property_icon invalue, effective_property_icon_data invalue, by
    rw [effective_property_icon]; exact icon_ne_icon_data⟩

/-- The NULL half of C9: with a NULL icon name stored, an icon-name change
clears the icon, and the icon-data change that follows installs the item's
image, resized. -/
theorem null_icon_name_clears (s : State) (item : Node) (gimi : Widget) (image : Pixbuf)
    (v w : Option GValue)
    (hbound : s.data_menuitem item = some gimi)
    (hclass : s.is_image_menu_item gimi = true)
    (hname : s.property_get item DBUSMENU_MENUITEM_PROP_ICON = none)
    (himage : s.property_get_image item DBUSMENU_MENUITEM_PROP_ICON_DATA = some image) :
    (image_property_handle s item DBUSMENU_MENUITEM_PROP_ICON v).image gimi = none ∧
      (image_property_handle (image_property_handle s item DBUSMENU_MENUITEM_PROP_ICON v)
        item DBUSMENU_MENUITEM_PROP_ICON_DATA w).image gimi =
        some (GtkImage.from_pixbuf (image_resize s image)) := by
  have hne := Ne.symm icon_ne_icon_data
  have h1 : image_property_handle s item DBUSMENU_MENUITEM_PROP_ICON v =
      gtk_image_menu_item_set_image s gimi none := by
    unfold image_property_handle
    simp [effective_property_icon, menuitem_get_eq, hbound, hname, icon_ne_icon_data]
  rw [h1]
  constructor
  · simp [gtk_image_menu_item_set_image, hclass, set_at]
  · unfold image_property_handle
    simp [effective_property_icon_data, menuitem_get_eq, hbound, hclass, hne, himage,
      gtk_image_menu_item_get_image, gtk_image_menu_item_set_image, set_at,
      gtk_image_get_storage_type, image_resize]

/-! ## Facts about the structural handlers -/

theorem new_child_root (s : State) (mi child : Node) (position : Nat)
    (h : s.get_root mi = true) : new_child s mi child position = s := by
  simp [new_child, h]

theorem new_child_get_root (s : State) (mi child : Node) (position : Nat) :
    (new_child s mi child position).get_root = s.get_root := by
  unfold new_child
  split
  · rfl
  · cases hm : s.data_menu mi <;> cases hc : s.data_menuitem child <;>
      cases hp : s.data_menuitem mi <;>
      simp [hm, hc, hp, gtk_menu_new, gtk_menu_item_set_submenu, gtk_menu_shell_insert,
        gtk_widget_show_menu, menuitem_get_eq, set_at] <;>
      (try split) <;> rfl

theorem new_child_get_children (s : State) (mi child : Node) (position : Nat) :
    (new_child s mi child position).get_children = s.get_children := by
  unfold new_child
  split
  · rfl
  · cases hm : s.data_menu mi <;> cases hc : s.data_menuitem child <;>
      cases hp : s.data_menuitem mi <;>
      simp [hm, hc, hp, gtk_menu_new, gtk_menu_item_set_submenu, gtk_menu_shell_insert,
        gtk_widget_show_menu, menuitem_get_eq, set_at] <;>
      (try split) <;> rfl

theorem new_child_data_menuitem (s : State) (mi child : Node) (position : Nat) :
    (new_child s mi child position).data_menuitem = s.data_menuitem := by
  unfold new_child
  split
  · rfl
  · cases hm : s.data_menu mi <;> cases hc : s.data_menuitem child <;>
      cases hp : s.data_menuitem mi <;>
      simp [hm, hc, hp, gtk_menu_new, gtk_menu_item_set_submenu, gtk_menu_shell_insert,
        gtk_widget_show_menu, menuitem_get_eq, set_at] <;>
      (try split) <;> rfl

theorem new_child_data_menu_other (s : State) (mi child n : Node) (position : Nat)
    (hn : n ≠ mi) : (new_child s mi child position).data_menu n = s.data_menu n := by
  unfold new_child
  split
  · rfl
  · cases hm : s.data_menu mi <;> cases hc : s.data_menuitem child <;>
      cases hp : s.data_menuitem mi <;>
      simp [hm, hc, hp, gtk_menu_new, gtk_menu_item_set_submenu, gtk_menu_shell_insert,
        gtk_widget_show_menu, menuitem_get_eq, set_at, hn] <;>
      (try split) <;> rfl

theorem new_child_keeps_menu (s : State) (mi child : Node) (position : Nat) (m : MenuId)
    (l : List Widget) (w : Widget)
    (hroot : s.get_root mi = false) (hm : s.data_menu mi = some m)
    (hl : s.menu_children m = some l) (hc : s.data_menuitem child = some w) :
    (new_child s mi child position).data_menu mi = some m ∧
      (new_child s mi child position).menu_children m = some (g_list_insert l w position) := by
  simp [new_child, hroot, hm, hl, hc, gtk_menu_shell_insert, gtk_widget_show_menu,
    menuitem_get_eq, set_at]

theorem new_child_builds_menu (s : State) (mi child : Node) (position : Nat)
    (hroot : s.get_root mi = false) (hm : s.data_menu mi = none) :
    (new_child s mi child position).data_menu mi = some s.next_menu ∧
      (new_child s mi child position).menu_children s.next_menu =
        some (match s.data_menuitem child with
              | some w => [w]
              | none => []) := by
  cases hc : s.data_menuitem child <;> cases hp : s.data_menuitem mi <;>
    simp [new_child, hroot, hm, hc, hp, gtk_menu_new, gtk_menu_item_set_submenu,
      gtk_menu_shell_insert, gtk_widget_show_menu, menuitem_get_eq, set_at, g_list_insert]

theorem new_child_has_menu (s : State) (mi child : Node) (position : Nat)
    (hroot : s.get_root mi = false) :
    (new_child s mi child position).data_menu mi ≠ none := by
  cases hm : s.data_menu mi with
  | none => simp [(new_child_builds_menu s mi child position hroot hm).1]
  | some m =>
      cases hc : s.data_menuitem child <;> cases hl : s.menu_children m <;>
        simp [new_child, hroot, hm, hl, hc, gtk_menu_shell_insert, gtk_widget_show_menu,
          menuitem_get_eq, set_at]

theorem delete_child_get_root (s : State) (mi child : Node) :
    (delete_child s mi child).get_root = s.get_root := by
  unfold delete_child
  split
  · rfl
  · split
    · split <;> rfl
    · rfl

theorem delete_child_get_children (s : State) (mi child : Node) :
    (delete_child s mi child).get_children = s.get_children := by
  unfold delete_child
  split
  · rfl
  · split
    · split <;> rfl
    · rfl

theorem delete_child_data_menu_other (s : State) (mi child n : Node) (hn : n ≠ mi) :
    (delete_child s mi child).data_menu n = s.data_menu n := by
  unfold delete_child
  split
  · rfl
  · split
    · split
      · simp [gtk_widget_destroy_menu, set_at, hn]
      · rfl
    · rfl

theorem delete_child_last (s : State) (mi child : Node)
    (hroot : s.get_root mi = false) (hnil : s.get_children mi = []) :
    (delete_child s mi child).data_menu mi = none ∧
      ∀ m, s.data_menu mi = some m → (delete_child s mi child).menu_children m = none := by
  cases hm : s.data_menu mi with
  | none => simp [delete_child, hroot, hnil, hm]
  | some m => simp [delete_child, hroot, hnil, hm, gtk_widget_destroy_menu, set_at]

theorem delete_child_remaining (s : State) (mi child : Node)
    (hsome : s.get_children mi ≠ []) : delete_child s mi child = s := by
  have h : (s.get_children mi).length ≠ 0 := by
    intro h0
    exact hsome (List.length_eq_zero.mp h0)
  simp [delete_child, h]

theorem g_list_insert_ne_nil {α : Type} (l : List α) (x : α) (n : Nat) :
    g_list_insert l x n ≠ [] := by
  cases l with
  | nil => simp [g_list_insert]
  | cons a l => cases n <;> simp [g_list_insert]



theorem reorder_child_frame (s : State) (menu : MenuId) (child : Option Widget)
    (position : Nat) :
    (gtk_menu_reorder_child s menu child position).get_root = s.get_root ∧
      (gtk_menu_reorder_child s menu child position).get_children = s.get_children ∧
      (gtk_menu_reorder_child s menu child position).data_menuitem = s.data_menuitem ∧
      (gtk_menu_reorder_child s menu child position).data_menu = s.data_menu := by
  unfold gtk_menu_reorder_child
  cases child with
  | none => simp
  | some w =>
      cases s.menu_children menu with
      | none => simp
      | some l => by_cases h : w ∈ l <;> simp [h]

theorem move_child_frame (s : State) (mi child : Node) (new old : Nat) :
    (move_child s mi child new old).get_root = s.get_root ∧
      (move_child s mi child new old).get_children = s.get_children ∧
      (move_child s mi child new old).data_menuitem = s.data_menuitem ∧
      (move_child s mi child new old).data_menu = s.data_menu := by
  unfold move_child
  by_cases hr : s.get_root mi = true
  · simp [hr]
  · cases hm : s.data_menu mi with
    | none => simp [hr, hm]
    | some m =>
        have h := reorder_child_frame s m (dbusmenu_gtkclient_menuitem_get s child) new
        simp only [hr, hm]
        simpa using h

theorem move_child_reorders (s : State) (mi child : Node) (new old : Nat) (m : MenuId)
    (l : List Widget) (w : Widget)
    (hroot : s.get_root mi = false) (hm : s.data_menu mi = some m)
    (hl : s.menu_children m = some l) (hc : s.data_menuitem child = some w) (hw : w ∈ l) :
    (move_child s mi child new old).menu_children m =
      some (g_list_insert (g_list_remove l w) w new) := by
  simp [move_child, hroot, hm, hl, hc, hw, gtk_menu_reorder_child, menuitem_get_eq, set_at]

/-! ## Facts about the list primitives -/

theorem map_g_list_insert {α β : Type} (f : α → β) (l : List α) (x : α) (n : Nat) :
    (g_list_insert l x n).map f = g_list_insert (l.map f) (f x) n := by
  induction l generalizing n with
  | nil => simp [g_list_insert]
  | cons a l ih =>
      cases n with
      | zero => simp [g_list_insert]
      | succ k => simp [g_list_insert, ih]

theorem map_g_list_remove {α β : Type} [DecidableEq α] [DecidableEq β] (f : α → β)
    (l : List α) (x : α) (hinj : ∀ a ∈ l, f a = f x → a = x) :
    (g_list_remove l x).map f = g_list_remove (l.map f) (f x) := by
  induction l with
  | nil => simp [g_list_remove]
  | cons a l ih =>
      have ih1 := ih (fun b hb => hinj b (List.mem_cons_of_mem a hb))
      by_cases h : a = x
      · subst h
        simp [g_list_remove]
      · have h2 : f a ≠ f x := fun hf => h (hinj a (List.mem_cons_self a l) hf)
        simp [g_list_remove, h, h2, ih1]

/-! ## Root exclusion and binding lookup -/

/-- C6: on an item whose root flag is set, the insertion, removal and move
handlers each return the state they were given: no container is created,
destroyed or reordered, and no slot changes. -/
theorem root_exclusion (s : State) (mi child : Node) (position new old : Nat)
    (hroot : s.get_root mi = true) :
    new_child s mi child position = s ∧ delete_child s mi child = s ∧
      move_child s mi child new old = s := by
  refine ⟨new_child_root s mi child position hroot, ?_, ?_⟩
  · simp [delete_child, hroot]
  · simp [move_child, hroot]

theorem root_exclusion_witness :
    blank_state.get_root 0 = true ∧
      (new_child blank_state 0 1 0 = blank_state ∧ delete_child blank_state 0 1 = blank_state ∧
        move_child blank_state 0 1 0 2 = blank_state) :=
  ⟨rfl, root_exclusion blank_state 0 1 0 0 2 rfl⟩

/-- C7: the lookup `dbusmenu_gtkclient_menuitem_get` is total; it answers
NULL exactly when the item's `data_menuitem` slot is empty, and after
`dbusmenu_gtkclient_newitem_base` bound a menu item to the item it answers
that menu item, whatever the parent is (NULL, a root or any other item). -/
theorem binding_lookup (s : State) (item : Node) (gmi : Widget) (parent : Option Node) :
    (dbusmenu_gtkclient_menuitem_get s item = none ↔ s.data_menuitem item = none) ∧
      dbusmenu_gtkclient_menuitem_get (dbusmenu_gtkclient_newitem_base s item gmi parent) item =
        some gmi := by
  constructor
  · rw [menuitem_get_eq]
  · rw [menuitem_get_eq]
    have hv : ∀ (t : State) (v : Option GValue),
        (process_visible t item gmi v).data_menuitem = t.data_menuitem := by
      intro t v
      unfold process_visible
      cases v with
      | none => rfl
      | some x =>
          cases hb : t.property_get_bool item DBUSMENU_MENUITEM_PROP_VISIBLE <;>
            simp [hb, gtk_widget_show, gtk_widget_hide]
    have hs : ∀ (t : State) (v : Option GValue),
        (process_sensitive t item gmi v).data_menuitem = t.data_menuitem := by
      intro t v
      rfl
    unfold dbusmenu_gtkclient_newitem_base
    cases parent with
    | none => simp [hv, hs, set_at]
    | some p => simp [new_child_data_menuitem, hv, hs, set_at]

/-! ## Container invariant -/

theorem tree_step_inv (s : State) (op : TreeOp) (hinv : container_inv s) :
    container_inv (tree_step s op) := by
  cases op with
  | add mi child position =>
      intro n
      have hr : (tree_step s (TreeOp.add mi child position)).get_root = s.get_root := by
        simp [tree_step, new_child_get_root, child_add_position]
      have hc : (tree_step s (TreeOp.add mi child position)).get_children =
          set_at s.get_children mi (g_list_insert (s.get_children mi) child position) := by
        simp [tree_step, new_child_get_children, child_add_position]
      rw [hr, hc]
      by_cases hn : n = mi
      · subst hn
        constructor
        · intro h
          have h1 : new_child (child_add_position s n child position) n child position =
              child_add_position s n child position :=
            new_child_root _ n child position h
          simp only [tree_step, h1]
          exact (hinv n).1 h
        · intro h
          have h1 := new_child_has_menu (child_add_position s n child position) n child
            position h
          simp only [tree_step, set_at_same]
          exact ⟨fun _ => g_list_insert_ne_nil _ _ _, fun _ => h1⟩
      · have h1 : (tree_step s (TreeOp.add mi child position)).data_menu n = s.data_menu n := by
          simp only [tree_step]
          rw [new_child_data_menu_other _ mi child n position hn]
          rfl
        rw [h1, set_at_other _ _ _ _ hn]
        exact hinv n
  | remove mi child =>
      intro n
      have hr : (tree_step s (TreeOp.remove mi child)).get_root = s.get_root := by
        simp [tree_step, delete_child_get_root, child_delete]
      have hc : (tree_step s (TreeOp.remove mi child)).get_children =
          set_at s.get_children mi (g_list_remove (s.get_children mi) child) := by
        simp [tree_step, delete_child_get_children, child_delete]
      rw [hr, hc]
      by_cases hn : n = mi
      · subst hn
        rw [set_at_same]
        have hcd : (child_delete s n child).get_children n =
            g_list_remove (s.get_children n) child := by
          simp [child_delete, set_at]
        by_cases hnil : g_list_remove (s.get_children n) child = []
        · constructor
          · intro h
            have h1 : delete_child (child_delete s n child) n child = child_delete s n child := by
              simp [delete_child, child_delete, h]
            simp only [tree_step, h1]
            exact (hinv n).1 h
          · intro h
            have h1 := (delete_child_last (child_delete s n child) n child h
              (hcd.trans hnil)).1
            simp only [tree_step, h1, hnil]
            simp
        · have h1 : delete_child (child_delete s n child) n child = child_delete s n child :=
            delete_child_remaining _ n child (by rw [hcd]; exact hnil)
          have hold : s.get_children n ≠ [] := by
            intro h0
            apply hnil
            simp [h0, g_list_remove]
          simp only [tree_step, h1]
          constructor
          · exact (hinv n).1
          · intro h
            have h2 := ((hinv n).2 h).mpr hold
            exact ⟨fun _ => hnil, fun _ => h2⟩
      · have h1 : (tree_step s (TreeOp.remove mi child)).data_menu n = s.data_menu n := by
          simp only [tree_step]
          rw [delete_child_data_menu_other _ mi child n hn]
          rfl
        rw [h1, set_at_other _ _ _ _ hn]
        exact hinv n

theorem run_tree_inv (s : State) (ops : List TreeOp) (hinv : container_inv s) :
    container_inv (run_tree s ops) := by
  induction ops generalizing s with
  | nil => exact hinv
  | cons op rest ih => exact ih (tree_step s op) (tree_step_inv s op hinv)

theorem blank_state_inv : container_inv blank_state := by
  intro n
  simp [blank_state]

/-- C2: the container invariant (a root item has no `data_menu`; a non-root
item has one exactly when it has a child) survives every sequence of
insertions and removals run in step with the child list.  In particular, from
a state meeting it, giving a childless non-root item a child creates a live
container, and removing that sole child destroys the container and empties
the `data_menu` slot. -/
theorem container_invariant (s : State) (ops : List TreeOp) (mi child : Node)
    (position : Nat) (hinv : container_inv s) :
    container_inv (run_tree s ops) ∧
      (s.get_root mi = false → s.get_children mi = [] →
        (tree_step s (TreeOp.add mi child position)).data_menu mi = some s.next_menu ∧
        (tree_step s (TreeOp.add mi child position)).menu_children s.next_menu ≠ none ∧
        (run_tree s [TreeOp.add mi child position, TreeOp.remove mi child]).data_menu mi =
          none ∧
        (run_tree s [TreeOp.add mi child position, TreeOp.remove mi child]).menu_children
          s.next_menu = none) := by
  refine ⟨run_tree_inv s ops hinv, ?_⟩
  intro hroot hnil
  have hm : s.data_menu mi = none := by
    by_contra h
    exact (((hinv mi).2 hroot).mp h) hnil
  have hb := new_child_builds_menu (child_add_position s mi child position) mi child position
    hroot hm
  have hnext : (child_add_position s mi child position).next_menu = s.next_menu := rfl
  rw [hnext] at hb
  have hr1 : (tree_step s (TreeOp.add mi child position)).get_root mi = false := by
    simp [tree_step, new_child_get_root, child_add_position, hroot]
  have hc1 : (tree_step s (TreeOp.add mi child position)).get_children mi =
      g_list_insert [] child position := by
    simp [tree_step, new_child_get_children, child_add_position, set_at, hnil]
  have hr2 : (child_delete (tree_step s (TreeOp.add mi child position)) mi child).get_root mi =
      false := hr1
  have hc2 : (child_delete (tree_step s (TreeOp.add mi child position)) mi child).get_children
      mi = [] := by
    simp [child_delete, set_at, hc1, g_list_insert, g_list_remove]
  have hd := delete_child_last _ mi child hr2 hc2
  refine ⟨hb.1, ?_, hd.1, hd.2 s.next_menu hb.1⟩
  simp only [tree_step]
  rw [hb.2]
  simp

theorem container_invariant_witness :
    container_inv blank_state ∧
      container_inv (run_tree blank_state
        [TreeOp.add 1 2 0, TreeOp.add 1 3 1, TreeOp.remove 1 2, TreeOp.remove 1 3]) ∧
      (run_tree blank_state [TreeOp.add 1 2 0, TreeOp.remove 1 2]).data_menu 1 = none ∧
      (run_tree blank_state [TreeOp.add 1 2 0, TreeOp.remove 1 2]).menu_children 100 = none :=
  ⟨blank_state_inv,
    (container_invariant blank_state
      [TreeOp.add 1 2 0, TreeOp.add 1 3 1, TreeOp.remove 1 2, TreeOp.remove 1 3] 1 2 0
      blank_state_inv).1,
    ((container_invariant blank_state [] 1 2 0 blank_state_inv).2 rfl rfl).2.2.1,
    ((container_invariant blank_state [] 1 2 0 blank_state_inv).2 rfl rfl).2.2.2⟩


/-! ## Order preservation -/

theorem order_ok_of_menu (s : State) (mi : Node) (m : MenuId) (l : List Widget)
    (hm : s.data_menu mi = some m) (hl : s.menu_children m = some l) :
    order_ok s mi ↔ l.map some = (s.get_children mi).map s.data_menuitem := by
  simp [order_ok, visual_order, container, bound_children, hm, hl]

theorem order_ok_of_no_menu (s : State) (mi : Node) (hm : s.data_menu mi = none) :
    order_ok s mi ↔ s.get_children mi = [] := by
  unfold order_ok visual_order container bound_children
  rw [hm]
  constructor
  · intro h
    exact List.map_eq_nil_iff.mp h.symm
  · intro h
    rw [h]
    rfl

theorem insertion_step (s : State) (mi child : Node) (position : Nat)
    (hroot : s.get_root mi = false) (hlive : menu_live s mi) (h0 : order_ok s mi)
    (hbound : s.data_menuitem child ≠ none) :
    menu_live (apply_op s mi (ChildOp.insertion child position)) mi ∧
      order_ok (apply_op s mi (ChildOp.insertion child position)) mi := by
  obtain ⟨w, hw⟩ := Option.ne_none_iff_exists'.mp hbound
  have hch : (apply_op s mi (ChildOp.insertion child position)).get_children mi =
      g_list_insert (s.get_children mi) child position := by
    simp [apply_op, new_child_get_children, child_add_position, set_at]
  have hdm : (apply_op s mi (ChildOp.insertion child position)).data_menuitem =
      s.data_menuitem := by
    simp [apply_op, new_child_data_menuitem, child_add_position]
  cases hm : s.data_menu mi with
  | none =>
      have hb := new_child_builds_menu (child_add_position s mi child position) mi child
        position hroot hm
      have hnil := (order_ok_of_no_menu s mi hm).mp h0
      have hw1 : (child_add_position s mi child position).data_menuitem child = some w := hw
      rw [hw1] at hb
      constructor
      · intro m hm1
        have hm2 : some (child_add_position s mi child position).next_menu = some m :=
          hb.1.symm.trans hm1
        cases hm2
        simp only [apply_op]
        rw [hb.2]
        simp
      · apply (order_ok_of_menu _ mi _ [w] hb.1 hb.2).mpr
        simp only [apply_op] at hch hdm
        rw [hch, hdm, hnil]
        simp [g_list_insert, hw]
  | some m =>
      cases hl : s.menu_children m with
      | none => exact absurd hl (hlive m hm)
      | some l =>
          have hk := new_child_keeps_menu (child_add_position s mi child position) mi child
            position m l w hroot hm hl hw
          have h1 := (order_ok_of_menu s mi m l hm hl).mp h0
          constructor
          · intro m1 hm1
            have hm2 : some m = some m1 := hk.1.symm.trans hm1
            cases hm2
            simp only [apply_op]
            rw [hk.2]
            simp
          · apply (order_ok_of_menu _ mi m _ hk.1 hk.2).mpr
            simp only [apply_op] at hch hdm
            rw [hch, hdm, map_g_list_insert, map_g_list_insert, h1, hw]

theorem move_step (s : State) (mi child : Node) (position : Nat)
    (hroot : s.get_root mi = false) (hinj : binding_injective s) (hlive : menu_live s mi)
    (h0 : order_ok s mi) (hmem : child ∈ s.get_children mi) :
    menu_live (apply_op s mi (ChildOp.move child position)) mi ∧
      order_ok (apply_op s mi (ChildOp.move child position)) mi := by
  have hf := move_child_frame (child_reorder s mi child position) mi child position
    ((s.get_children mi).indexOf child)
  have hch : (apply_op s mi (ChildOp.move child position)).get_children mi =
      g_list_insert (g_list_remove (s.get_children mi) child) child position := by
    simp only [apply_op]
    rw [hf.2.1]
    simp [child_reorder, set_at]
  have hdm : (apply_op s mi (ChildOp.move child position)).data_menuitem = s.data_menuitem := by
    simp only [apply_op]
    rw [hf.2.2.1]
    rfl
  have hdu : (apply_op s mi (ChildOp.move child position)).data_menu = s.data_menu := by
    simp only [apply_op]
    rw [hf.2.2.2]
    rfl
  cases hm : s.data_menu mi with
  | none =>
      have hnil := (order_ok_of_no_menu s mi hm).mp h0
      rw [hnil] at hmem
      simp at hmem
  | some m =>
      cases hl : s.menu_children m with
      | none => exact absurd hl (hlive m hm)
      | some l =>
          have h1 := (order_ok_of_menu s mi m l hm hl).mp h0
          have hin : s.data_menuitem child ∈ l.map some := by
            rw [h1]
            exact List.mem_map_of_mem _ hmem
          obtain ⟨w, hwl, hw⟩ := List.mem_map.mp hin
          have hmv := move_child_reorders (child_reorder s mi child position) mi child position
            ((s.get_children mi).indexOf child) m l w hroot hm hl hw.symm hwl
          have hm1 : (apply_op s mi (ChildOp.move child position)).data_menu mi = some m := by
            rw [hdu, hm]
          constructor
          · intro m1 hm2
            have hm3 : some m = some m1 := hm1.symm.trans hm2
            cases hm3
            simp only [apply_op]
            rw [hmv]
            simp
          · have hinj1 : ∀ a ∈ s.get_children mi,
                s.data_menuitem a = s.data_menuitem child → a = child := by
              intro a _ ha
              exact hinj a child w (ha.trans hw.symm) hw.symm
            have hinj2 : ∀ a ∈ l, some a = some w → a = w := by
              intro a _ ha
              exact Option.some.inj ha
            apply (order_ok_of_menu _ mi m _ hm1 hmv).mpr
            simp only [apply_op] at hch hdm ⊢
            rw [hch, hdm, map_g_list_insert, map_g_list_insert, map_g_list_remove _ _ _ hinj1,
              map_g_list_remove _ _ _ hinj2, h1, hw]

theorem apply_op_step (s : State) (mi : Node) (op : ChildOp)
    (hroot : s.get_root mi = false) (hinj : binding_injective s) (hlive : menu_live s mi)
    (h0 : order_ok s mi) (hop : op_ok s mi op) :
    (apply_op s mi op).get_root mi = false ∧ binding_injective (apply_op s mi op) ∧
      menu_live (apply_op s mi op) mi ∧ order_ok (apply_op s mi op) mi := by
  cases op with
  | insertion child position =>
      have h := insertion_step s mi child position hroot hlive h0 hop.1
      refine ⟨?_, ?_, h.1, h.2⟩
      · simp [apply_op, new_child_get_root, child_add_position, hroot]
      · have hdm : (apply_op s mi (ChildOp.insertion child position)).data_menuitem =
            s.data_menuitem := by
          simp [apply_op, new_child_data_menuitem, child_add_position]
        unfold binding_injective
        rw [hdm]
        exact hinj
  | move child position =>
      have h := move_step s mi child position hroot hinj hlive h0 hop.1
      have hf := move_child_frame (child_reorder s mi child position) mi child position
        ((s.get_children mi).indexOf child)
      refine ⟨?_, ?_, h.1, h.2⟩
      · simp only [apply_op]
        rw [hf.1]
        exact hroot
      · unfold binding_injective
        simp only [apply_op]
        rw [hf.2.2.1]
        exact hinj

theorem run_ops_ok (s : State) (mi : Node) (ops : List ChildOp)
    (hroot : s.get_root mi = false) (hinj : binding_injective s) (hlive : menu_live s mi)
    (h0 : order_ok s mi) (hops : ops_ok s mi ops) :
    menu_live (run_ops s mi ops) mi ∧ order_ok (run_ops s mi ops) mi := by
  induction ops generalizing s with
  | nil => exact ⟨hlive, h0⟩
  | cons op rest ih =>
      have h := apply_op_step s mi op hroot hinj hlive h0 hops.1
      exact ih (apply_op s mi op) h.1 h.2.1 h.2.2.1 h.2.2.2 hops.2

theorem ops_ok_take (s : State) (mi : Node) (ops : List ChildOp) (k : Nat)
    (hops : ops_ok s mi ops) : ops_ok s mi (ops.take k) := by
  induction ops generalizing s k with
  | nil => simpa using hops
  | cons op rest ih =>
      cases k with
      | zero => simp [ops_ok]
      | succ j =>
          simp only [List.take_succ_cons, ops_ok]
          exact ⟨hops.1, ih (apply_op s mi op) j hops.2⟩

theorem bound_state_injective : binding_injective bound_state := by
  intro a b w ha hb
  simp only [bound_state] at ha hb
  split at ha <;> split at hb <;> simp at ha hb
  exact Nat.add_right_cancel (ha.trans hb.symm)

/-- C1: start from a non-root parent whose visual child order equals the
bound menu items of its abstract children, with distinct items bound to
distinct menu items.  After every operation of every sequence of insertions
(of a bound child, at a position up to the child count) and moves (of an
existing child, to a position below the child count), the menu items in the
parent's container are again the bound menu items of the abstract children,
in abstract order, and the container the parent points to is a live menu. -/
theorem order_preserved (s : State) (mi : Node) (ops : List ChildOp) (k : Nat)
    (hroot : s.get_root mi = false) (hinj : binding_injective s) (hlive : menu_live s mi)
    (h0 : order_ok s mi) (hops : ops_ok s mi ops) :
    menu_live (run_ops s mi (ops.take k)) mi ∧ order_ok (run_ops s mi (ops.take k)) mi :=
  run_ops_ok s mi (ops.take k) hroot hinj hlive h0 (ops_ok_take s mi ops k hops)

theorem order_preserved_witness :
    ops_ok bound_state 1
        [ChildOp.insertion 2 0, ChildOp.insertion 3 1, ChildOp.insertion 4 2, ChildOp.move 4 0] ∧
      order_ok (run_ops bound_state 1
        [ChildOp.insertion 2 0, ChildOp.insertion 3 1, ChildOp.insertion 4 2, ChildOp.move 4 0])
        1 ∧
      (run_ops bound_state 1
        [ChildOp.insertion 2 0, ChildOp.insertion 3 1, ChildOp.insertion 4 2,
          ChildOp.move 4 0]).get_children 1 = [4, 2, 3] ∧
      container (run_ops bound_state 1
        [ChildOp.insertion 2 0, ChildOp.insertion 3 1, ChildOp.insertion 4 2, ChildOp.move 4 0])
        1 = some [14, 12, 13] := by
  have hops : ops_ok bound_state 1
      [ChildOp.insertion 2 0, ChildOp.insertion 3 1, ChildOp.insertion 4 2,
        ChildOp.move 4 0] := by
    refine ⟨⟨by decide, by decide⟩, ⟨by decide, by decide⟩, ⟨by decide, by decide⟩,
      ⟨by decide, by decide⟩, trivial⟩
  have hlive : menu_live bound_state 1 := by
    intro m hm
    simp [bound_state, blank_state] at hm
  refine ⟨hops, ?_, by rfl, by rfl⟩
  exact (order_preserved bound_state 1
    [ChildOp.insertion 2 0, ChildOp.insertion 3 1, ChildOp.insertion 4 2, ChildOp.move 4 0] 4
    rfl bound_state_injective hlive (by decide) hops).2


/-! ## Order at removal -/

/-- C8 as stated fails: item 1 has the children 2 and 3 with the container
holding their menu items 12 and 13.  Child 2 is removed and child 3 remains;
when `delete_child` returns, the container still holds 12 and 13, while the
remaining abstract child is bound to 13 alone. -/
theorem removal_order_counterexample :
    family_state.get_root 1 = false ∧ order_ok family_state 1 ∧
      2 ∈ family_state.get_children 1 ∧
      (tree_step family_state (TreeOp.remove 1 2)).get_children 1 = [3] ∧
      visual_order (tree_step family_state (TreeOp.remove 1 2)) 1 = [12, 13] ∧
      bound_children (tree_step family_state (TreeOp.remove 1 2)) 1 = [some 13] ∧
      ¬ order_ok (tree_step family_state (TreeOp.remove 1 2)) 1 := by
  refine ⟨rfl, by decide, by decide, rfl, rfl, rfl, by decide⟩

/-- C8, amended: when a child is removed from the child list of a parent whose
order agreed, and a child remains, `delete_child` leaves the container as it
was: it still lists the bound menu items of the children before the removal,
the removed child's menu item included.  Taking that one menu item out of
the list gives the bound menu items of the remaining children, in abstract
order. -/
theorem removal_keeps_container (s : State) (mi child : Node)
    (hinj : binding_injective s) (h0 : order_ok s mi)
    (hmem : child ∈ s.get_children mi)
    (hrem : g_list_remove (s.get_children mi) child ≠ []) :
    visual_order (tree_step s (TreeOp.remove mi child)) mi = visual_order s mi ∧
      (visual_order (tree_step s (TreeOp.remove mi child)) mi).map some =
        (s.get_children mi).map s.data_menuitem ∧
      ∃ w, s.data_menuitem child = some w ∧
        w ∈ visual_order (tree_step s (TreeOp.remove mi child)) mi ∧
        (g_list_remove (visual_order (tree_step s (TreeOp.remove mi child)) mi) w).map some =
          bound_children (tree_step s (TreeOp.remove mi child)) mi := by
  have hcd : (child_delete s mi child).get_children mi =
      g_list_remove (s.get_children mi) child := by
    simp [child_delete, set_at]
  have hstep : tree_step s (TreeOp.remove mi child) = child_delete s mi child := by
    simp only [tree_step]
    exact delete_child_remaining _ mi child (by rw [hcd]; exact hrem)
  have hvo : visual_order (child_delete s mi child) mi = visual_order s mi := rfl
  have hbc : bound_children (child_delete s mi child) mi =
      (g_list_remove (s.get_children mi) child).map s.data_menuitem := by
    unfold bound_children
    rw [hcd]
    rfl
  have h1 : (visual_order s mi).map some = (s.get_children mi).map s.data_menuitem := h0
  have hin : s.data_menuitem child ∈ (visual_order s mi).map some := by
    rw [h1]
    exact List.mem_map_of_mem _ hmem
  obtain ⟨w, hwl, hw⟩ := List.mem_map.mp hin
  rw [hstep, hvo, hbc]
  refine ⟨rfl, h1, w, hw.symm, hwl, ?_⟩
  have hinj1 : ∀ a ∈ s.get_children mi,
      s.data_menuitem a = s.data_menuitem child → a = child := by
    intro a _ ha
    exact hinj a child w (ha.trans hw.symm) hw.symm
  have hinj2 : ∀ a ∈ visual_order s mi, some a = some w → a = w := by
    intro a _ ha
    exact Option.some.inj ha
  rw [map_g_list_remove _ _ _ hinj1, map_g_list_remove _ _ _ hinj2, h1, hw]

theorem family_state_injective : binding_injective family_state :=
  bound_state_injective

theorem removal_keeps_container_witness :
    order_ok family_state 1 ∧ 2 ∈ family_state.get_children 1 ∧
      g_list_remove (family_state.get_children 1) 2 ≠ [] ∧
      visual_order (tree_step family_state (TreeOp.remove 1 2)) 1 = visual_order family_state 1 ∧
      (∃ w, family_state.data_menuitem 2 = some w ∧
        w ∈ visual_order (tree_step family_state (TreeOp.remove 1 2)) 1 ∧
        (g_list_remove (visual_order (tree_step family_state (TreeOp.remove 1 2)) 1) w).map some =
          bound_children (tree_step family_state (TreeOp.remove 1 2)) 1) :=
  ⟨by decide, by decide, by decide,
    (removal_keeps_container family_state 1 2 family_state_injective (by decide) (by decide)
      (by decide)).1,
    (removal_keeps_container family_state 1 2 family_state_injective (by decide) (by decide)
      (by decide)).2.2⟩

end DbusmenuGtk
